import Mathlib

/-!
Shallow embedding of the control-plane payload layer of the ZMK split keyboard
firmware (files `src/app/src/split/bluetooth/service.c` and
`src/app/src/usb_hid.c`), together with theorems checking the natural-language
specification against the code.

Machine integers are modelled as `Nat`/`Int`; where the C code truncates to a
16-bit quantity the model takes the value `% 65536` explicitly.  Byte buffers
are `List Nat` (each element one byte).  External collaborators (the behavior
engine, the USB delivery interface, the Zephyr work queue) are parameters of
the definitions: an oracle function for each call the code makes.
-/

namespace ZmkSpec

/-! ## Byte-buffer primitives -/

/-- Read the byte at index `i` of a buffer (0 for out-of-range, matching a
zero-initialised static buffer's surroundings never being read in-model). -/
def getByte (buf : List Nat) (i : Nat) : Nat := buf.getD i 0

/-- Write primitive: `writeAt buf base pl` copies the bytes `pl` into `buf` starting at byte
index `base`.  Bytes of `pl` that fall at indices `≥ buf.length` do not land
in the buffer (in C they would write past the object: undefined behaviour /
memory corruption; the model records only the effect on the buffer itself). -/
def writeAt : List Nat → Nat → List Nat → List Nat
  | [], _, _ => []
  | b :: rest, 0, [] => b :: rest
  | _ :: rest, 0, p :: ps => p :: writeAt rest 0 ps
  | b :: rest, base + 1, pl => b :: writeAt rest base pl

/-- Reading back a `(offset, length)` range of a buffer. -/
def readRange (buf : List Nat) (offset len : Nat) : List Nat :=
  (buf.drop offset).take len

/-! ## Split GATT service: reassembly decoder (`service.c`) -/

/-- ATT protocol error code `BT_ATT_ERR_INVALID_OFFSET` (0x07). -/
def BT_ATT_ERR_INVALID_OFFSET : Int := 7

/-- ATT protocol error code `BT_ATT_ERR_UNLIKELY` (0x0E), the generic
catch-all error, listed to distinguish the invalid-offset rejection from a
generic failure. -/
def BT_ATT_ERR_UNLIKELY : Int := 14

/-- Macro `BT_GATT_ERR(err)` is `-err`: GATT write callbacks return a negated ATT
error code on failure and the accepted length on success. -/
def BT_GATT_ERR (e : Int) : Int := -e

/-- Modelled from the spec: `struct zmk_split_run_behavior_data` is declared
in a header that is not under `src/`.  The spec's data model gives the fixed
header fields `position: uint16, param1: uint32, param2: uint32, state: uint8`
in that order, packed little-endian, for a total of 11 bytes. -/
def run_behavior_data_size : Nat := 11

/-- Modelled from the spec: `offsetof(struct zmk_split_run_behavior_payload,
behavior_dev)` — the variable-length NUL-terminated identifier immediately
follows the packed fixed header, so its offset equals the header size. -/
def behavior_dev_offset : Nat := 11

/-- Modelled from the spec: the identifier field is "bounded to a compile-time
maximum length"; the spec does not fix the number, 9 bytes is used here (it
must be at least 4 to hold the spec's scenario identifier `"foo\0"`). -/
def behavior_dev_len : Nat := 9

/-- Size `sizeof(struct zmk_split_run_behavior_payload)`: packed fixed header plus
the identifier array. -/
def run_behavior_payload_size : Nat := run_behavior_data_size + behavior_dev_len

/-- Little-endian 16-bit field read from two buffer bytes. -/
def le16 (b0 b1 : Nat) : Nat := b0 + 256 * b1

/-- Little-endian 32-bit field read from four buffer bytes. -/
def le32 (b0 b1 b2 b3 : Nat) : Nat :=
  b0 + 256 * b1 + 65536 * b2 + 16777216 * b3

/-- Field `payload->data.position` (uint16 at byte offset 0). -/
def payload_position (buf : List Nat) : Nat := le16 (getByte buf 0) (getByte buf 1)

/-- Field `payload->data.param1` (uint32 at byte offset 2). -/
def payload_param1 (buf : List Nat) : Nat :=
  le32 (getByte buf 2) (getByte buf 3) (getByte buf 4) (getByte buf 5)

/-- Field `payload->data.param2` (uint32 at byte offset 6). -/
def payload_param2 (buf : List Nat) : Nat :=
  le32 (getByte buf 6) (getByte buf 7) (getByte buf 8) (getByte buf 9)

/-- Field `payload->data.state` (uint8 at byte offset 10). -/
def payload_state (buf : List Nat) : Nat := getByte buf 10

/-- The bytes of `payload->behavior_dev` read as a C string: the identifier
region up to (excluding) its first NUL byte. -/
def payload_behavior_dev (buf : List Nat) : List Nat :=
  ((buf.drop behavior_dev_offset).take behavior_dev_len).takeWhile (· ≠ 0)

/-- One invocation of the external behavior collaborator, as built by
`split_svc_run_behavior`: the `zmk_behavior_binding` fields, the event
position, and whether the press or the release entry point was chosen
(`payload->data.state > 0`). -/
structure Dispatch where
  behavior_dev : List Nat
  param1 : Nat
  param2 : Nat
  position : Nat
  pressed : Bool
deriving Repr, DecidableEq

/-- Result of one `split_svc_run_behavior` GATT write callback: the buffer
after the call, the returned status (`ssize_t`), the behavior invocations made
(at most one), and the error codes those invocations returned (logged only). -/
structure WriteResult where
  buf : List Nat
  ret : Int
  dispatches : List Dispatch
  dispatchErrs : List Int
deriving Repr, DecidableEq

/-- Decode the completed message into the dispatched command
(fixed-offset field extraction from the shared buffer). -/
def decodeDispatch (buf : List Nat) : Dispatch :=
  { behavior_dev := payload_behavior_dev buf
    param1 := payload_param1 buf
    param2 := payload_param2 buf
    position := payload_position buf
    pressed := payload_state buf > 0 }

/-- Shallow embedding of `split_svc_run_behavior` (service.c lines 57-100).
`invoke` is the external behavior collaborator
(`behavior_keymap_binding_pressed` / `_released`, selected inside `Dispatch`);
`buf` is the static `behavior_run_payload` buffer (length
`run_behavior_payload_size`); `pl` the written bytes; `offset` the ATT write
offset (a `uint16`).

Two faithfully-kept details of the C code:
* `uint16_t end_addr = offset + len;` truncates the sum to 16 bits, hence the
  `% 65536`;
* `memcpy(payload + offset, buf, len);` performs pointer arithmetic on a
  `struct zmk_split_run_behavior_payload *`, which advances by
  `offset * sizeof(struct zmk_split_run_behavior_payload)` BYTES, not by
  `offset` bytes — so the copy destination is byte index
  `offset * run_behavior_payload_size`. -/
def split_svc_run_behavior (invoke : Dispatch → Int) (buf pl : List Nat)
    (offset : Nat) : WriteResult :=
  let len := pl.length
  let end_addr := (offset + len) % 65536
  if end_addr > run_behavior_payload_size then
    ⟨buf, BT_GATT_ERR BT_ATT_ERR_INVALID_OFFSET, [], []⟩
  else
    let buf1 := writeAt buf (offset * run_behavior_payload_size) pl
    if end_addr > run_behavior_data_size ∧
        getByte buf1 (behavior_dev_offset + (end_addr - behavior_dev_offset - 1)) = 0 then
      let d := decodeDispatch buf1
      let err := invoke d
      ⟨buf1, (len : Int), [d], [err]⟩
    else
      ⟨buf1, (len : Int), [], []⟩

/-- Modelled from the spec: `zmk_hid_indicators_t` is declared in a header
not under `src/`; the spec calls it an "indicator bitmask" cache — a single
byte here (the exact width is immaterial to the claims). -/
def hid_indicators_size : Nat := 1

/-- Result of one `split_svc_update_indicators` GATT write callback: the
`hid_indicators` storage after the call, the returned status, and whether the
deferred notification work item was submitted. -/
structure IndicatorsResult where
  ind : List Nat
  ret : Int
  workSubmitted : Bool
deriving Repr, DecidableEq

/-- Shallow embedding of `split_svc_update_indicators` (service.c lines
123-135).  Unlike `split_svc_run_behavior`, the bound check `offset + len >
sizeof(zmk_hid_indicators_t)` is computed in full (promoted-to-`int`)
arithmetic, and the copy destination `(uint8_t *)&hid_indicators + offset` is
genuine byte arithmetic. -/
def split_svc_update_indicators (ind pl : List Nat) (offset : Nat) :
    IndicatorsResult :=
  let len := pl.length
  if offset + len > hid_indicators_size then
    ⟨ind, BT_GATT_ERR BT_ATT_ERR_INVALID_OFFSET, false⟩
  else
    ⟨writeAt ind offset pl, (len : Int), true⟩

/-! ### Concrete scenario inputs for the reassembly decoder -/

/-- Behavior collaborator oracle that always succeeds. -/
def inv_ok : Dispatch → Int := fun _ => 0

/-- Behavior collaborator oracle that always fails (e.g. `-ENODEV`). -/
def inv_fail : Dispatch → Int := fun _ => -19

/-- The zero-initialised static `behavior_run_payload` buffer. -/
def zeroPayloadBuf : List Nat := List.replicate run_behavior_payload_size 0

/-- Spec scenario, first write (offsets 0-9): `position = 5`, `param1 = 10`,
`param2 = 0`, little-endian. -/
def scenario_write1 : List Nat := [5, 0, 10, 0, 0, 0, 0, 0, 0, 0]

/-- Spec scenario, second write (offsets 10-14): `state = 1` followed by the
identifier bytes `"foo\0"`. -/
def scenario_write2 : List Nat := [1, 102, 111, 111, 0]

/-- The whole scenario message as a single offset-0 write. -/
def scenario_full : List Nat := scenario_write1 ++ scenario_write2

/-- The bytes of the identifier string `"foo"`. -/
def foo_bytes : List Nat := [102, 111, 111]

/-- Result of the scenario's first write on the zeroed buffer. -/
def scenario_r1 : WriteResult :=
  split_svc_run_behavior inv_ok zeroPayloadBuf scenario_write1 0

/-- Result of the scenario's second write, applied after the first. -/
def scenario_r2 : WriteResult :=
  split_svc_run_behavior inv_ok scenario_r1.buf scenario_write2 10

/-! ## USB HID output queue and drain worker (`usb_hid.c`) -/

/-- Error code `ENODEV` (no such device). -/
def ENODEV : Int := 19

/-- Error code `ENOMSG`: `k_msgq_put` with `K_NO_WAIT` returns `-ENOMSG`
when the message queue is full. -/
def ENOMSG : Int := 35

/-- Capacity of `usb_hid_msgq`: `K_MSGQ_DEFINE(usb_hid_msgq,
sizeof(struct usb_hid_msg), 8, 1)`. -/
def USB_HID_MSGQ_CAP : Nat := 8

/-- One element of the output queue, `struct usb_hid_msg`: the report bytes
and their length (`data` holds the first `len` bytes of the report; the unused
tail of the fixed `CONFIG_HID_INTERRUPT_EP_MPS`-byte array is never read). -/
structure UsbHidMsg where
  data : List Nat
  len : Nat
deriving Repr, DecidableEq

/-- The mutable state shared by the producer and the drain worker: the
message queue contents (head first, FIFO) and the consecutive-failure counter
`static int usb_hid_failed`. -/
structure UsbHidState where
  msgq : List UsbHidMsg
  usb_hid_failed : Int
deriving Repr, DecidableEq

/-- Zephyr `k_msgq_put` with `K_NO_WAIT` on a bounded queue of capacity
`USB_HID_MSGQ_CAP`: append if there is room, otherwise fail with `-ENOMSG`
leaving the queue unchanged. -/
def k_msgq_put (q : List UsbHidMsg) (m : UsbHidMsg) : List UsbHidMsg × Int :=
  if q.length < USB_HID_MSGQ_CAP then (q ++ [m], 0) else (q, -ENOMSG)

/-- Result of one invocation of the drain worker `usb_hid_work_handler` (one
full run of its `while` loop until it returns): the state left behind, the
head messages attempted in order, those delivered (write succeeded), those
dropped after the third consecutive failure, whether the worker rescheduled
itself (more work pending on the same head), and the reschedule delay in ms
(`K_MSEC(10)`). -/
structure RunResult where
  state : UsbHidState
  attempted : List UsbHidMsg
  delivered : List UsbHidMsg
  dropped : List UsbHidMsg
  rescheduled : Bool
  delayMs : Option Nat
deriving Repr, DecidableEq

/-- Shallow embedding of `usb_hid_work_handler` (usb_hid.c lines 37-59),
parameterised by the delivery interface `ep_write` (the result of
`hid_int_ep_write` for a given message; nonzero means failure), running on a
queue and the current `usb_hid_failed` counter.

Loop body, faithfully: peek the head; attempt the write; on failure increment
the counter and, if it is still `< 3`, reschedule after 10 ms and return
without removing the head; otherwise (drop after the third failure, or a
successful write) remove the head, reset the counter to 0 and continue. -/
def usb_hid_work_handler (ep_write : UsbHidMsg → Int) :
    List UsbHidMsg → Int → RunResult
  | [], failed => ⟨⟨[], failed⟩, [], [], [], false, none⟩
  | msg :: rest, failed =>
    if ep_write msg ≠ 0 then
      if failed + 1 < 3 then
        ⟨⟨msg :: rest, failed + 1⟩, [msg], [], [], true, some 10⟩
      else
        let r := usb_hid_work_handler ep_write rest 0
        ⟨r.state, msg :: r.attempted, r.delivered, msg :: r.dropped,
          r.rescheduled, r.delayMs⟩
    else
      let r := usb_hid_work_handler ep_write rest 0
      ⟨r.state, msg :: r.attempted, msg :: r.delivered, r.dropped,
        r.rescheduled, r.delayMs⟩

/-- Accumulated result of repeatedly running the drain worker while it keeps
rescheduling itself (the backoff timer firing again after each 10 ms delay):
final state, every head attempt in order, deliveries, drops, and whether the
iteration fuel ran out before the worker went idle. -/
structure DriveResult where
  final : UsbHidState
  attempted : List UsbHidMsg
  delivered : List UsbHidMsg
  dropped : List UsbHidMsg
  fuelOut : Bool
deriving Repr, DecidableEq

/-- Run `usb_hid_work_handler` repeatedly, following each self-reschedule,
for at most `fuel` invocations. -/
def usb_hid_drive (ep_write : UsbHidMsg → Int) : Nat → UsbHidState → DriveResult
  | 0, st => ⟨st, [], [], [], true⟩
  | fuel + 1, st =>
    let r := usb_hid_work_handler ep_write st.msgq st.usb_hid_failed
    if r.rescheduled then
      let d := usb_hid_drive ep_write fuel r.state
      ⟨d.final, r.attempted ++ d.attempted, r.delivered ++ d.delivered,
        r.dropped ++ d.dropped, d.fuelOut⟩
    else
      ⟨r.state, r.attempted, r.delivered, r.dropped, false⟩

/-- Each message of a list repeated three times in place, the attempt pattern
of a delivery interface that fails every attempt. -/
def tripleEach (l : List UsbHidMsg) : List UsbHidMsg :=
  l.flatMap (fun m => [m, m, m])

/-- Outcome of a single iteration of the drain worker's loop body, used for
the counter invariant: the loop stopped because the queue was empty, the
worker returned rescheduled (head kept, counter incremented), or the head was
removed (delivered or dropped) and the loop continues. -/
inductive IterOut where
  | emptyStop : IterOut
  | retryStop (st : UsbHidState) : IterOut
  | next (st : UsbHidState) (removed : UsbHidMsg) (delivered : Bool) : IterOut
deriving Repr, DecidableEq

/-- One iteration of the `usb_hid_work_handler` loop body (usb_hid.c lines
39-58) as a state transition. -/
def usb_hid_work_iter (ep_write : UsbHidMsg → Int) (st : UsbHidState) : IterOut :=
  match st.msgq with
  | [] => .emptyStop
  | msg :: rest =>
    if ep_write msg ≠ 0 then
      if st.usb_hid_failed + 1 < 3 then
        .retryStop ⟨msg :: rest, st.usb_hid_failed + 1⟩
      else
        .next ⟨rest, 0⟩ msg false
    else
      .next ⟨rest, 0⟩ msg true

/-- Zephyr USB device controller status codes (`enum usb_dc_status_code`),
the delivery interface status queried by `zmk_usb_get_status()`. -/
inductive UsbDcStatus where
  | usbError | usbReset | connected | configured | disconnected | suspend
  | resume | interfaceStatus | setHalt | clearHalt | sof | unknown
deriving Repr, DecidableEq

/-- Result of `zmk_usb_hid_send_report`: the returned status, the queue
afterwards, whether `usb_wakeup_request()` was issued, and whether the drain
work item was (re)scheduled. -/
structure SendResult where
  ret : Int
  queue : List UsbHidMsg
  wakeRequested : Bool
  workScheduled : Bool
deriving Repr, DecidableEq

/-- Shallow embedding of `zmk_usb_hid_send_report` (usb_hid.c lines 167-190).
`status` is the current `zmk_usb_get_status()` value and `wakeupRet` the
result of `usb_wakeup_request()` (both external).  On `USB_DC_SUSPEND` a wake
is requested and nothing queued; on `USB_DC_ERROR`, `USB_DC_RESET`,
`USB_DC_DISCONNECTED` and `USB_DC_UNKNOWN` the call returns `-ENODEV` with
nothing queued; otherwise the report is copied into a message and put on the
queue with `K_NO_WAIT` — a full queue is only logged, and the function
returns 0 either way. -/
def zmk_usb_hid_send_report (status : UsbDcStatus) (wakeupRet : Int)
    (q : List UsbHidMsg) (report : List Nat) : SendResult :=
  match status with
  | .suspend => ⟨wakeupRet, q, true, false⟩
  | .usbError | .usbReset | .disconnected | .unknown => ⟨-ENODEV, q, false, false⟩
  | _ =>
    let msg : UsbHidMsg := ⟨report, report.length⟩
    let put := k_msgq_put q msg
    if put.2 ≠ 0 then
      ⟨0, put.1, false, false⟩
    else
      ⟨0, put.1, false, true⟩

/-- Message made from a report, as `zmk_usb_hid_send_report` builds it. -/
def mkMsg (report : List Nat) : UsbHidMsg := ⟨report, report.length⟩

/-- Enqueue a list of reports in order through `zmk_usb_hid_send_report`
with the delivery interface in the `configured` (ready) state. -/
def enqueueAll (reports : List (List Nat)) (q : List UsbHidMsg) : List UsbHidMsg :=
  reports.foldl (fun acc r => (zmk_usb_hid_send_report .configured 0 acc r).queue) q

/-- States of the shared `(usb_hid_msgq, usb_hid_failed)` pair reachable from
boot (`empty queue, counter 0`) under any interleaving of producer calls
(`zmk_usb_hid_send_report`, any interface status, any wakeup result, any
report) and drain-worker loop iterations (any delivery interface outcome). -/
inductive UsbHidReachable : UsbHidState → Prop where
  | init : UsbHidReachable ⟨[], 0⟩
  | enqueue (st : UsbHidState) (status : UsbDcStatus) (w : Int) (report : List Nat) :
      UsbHidReachable st →
      UsbHidReachable ⟨(zmk_usb_hid_send_report status w st.msgq report).queue,
        st.usb_hid_failed⟩
  | retry (ep_write : UsbHidMsg → Int) (st st' : UsbHidState) :
      UsbHidReachable st → usb_hid_work_iter ep_write st = .retryStop st' →
      UsbHidReachable st'
  | advance (ep_write : UsbHidMsg → Int) (st st' : UsbHidState)
      (m : UsbHidMsg) (d : Bool) :
      UsbHidReachable st → usb_hid_work_iter ep_write st = .next st' m d →
      UsbHidReachable st'

/-! ### Concrete inputs for the output queue -/

/-- A delivery interface that always succeeds. -/
def ep_ok : UsbHidMsg → Int := fun _ => 0

/-- A delivery interface that fails every attempt (`hid_int_ep_write`
returning `-EAGAIN`). -/
def ep_fail : UsbHidMsg → Int := fun _ => -11

/-- A one-byte example message. -/
def msgA : UsbHidMsg := ⟨[1], 1⟩

/-- A second one-byte example message. -/
def msgB : UsbHidMsg := ⟨[2], 1⟩

/-- A queue filled to its capacity of 8. -/
def fullQueue : List UsbHidMsg := List.replicate USB_HID_MSGQ_CAP msgA

/-! ## Helper lemmas about the buffer primitives -/

theorem writeAt_length (buf : List Nat) (base : Nat) (pl : List Nat) :
    (writeAt buf base pl).length = buf.length := by
  induction buf generalizing base pl with
  | nil => rfl
  | cons b rest ih =>
    cases base with
    | zero =>
      cases pl with
      | nil => rfl
      | cons p ps => simp [writeAt, ih]
    | succ n => simp [writeAt, ih]

theorem getByte_writeAt_lt (buf : List Nat) (base : Nat) (pl : List Nat)
    (i : Nat) (h : i < base) : getByte (writeAt buf base pl) i = getByte buf i := by
  induction buf generalizing base pl i with
  | nil => rfl
  | cons b rest ih =>
    cases base with
    | zero => omega
    | succ n =>
      cases i with
      | zero => rfl
      | succ j =>
        simp only [writeAt, getByte, List.getD_cons_succ]
        exact ih n pl j (by omega)

theorem getByte_writeAt_ge (buf : List Nat) (base : Nat) (pl : List Nat)
    (i : Nat) (h : base + pl.length ≤ i) :
    getByte (writeAt buf base pl) i = getByte buf i := by
  induction buf generalizing base pl i with
  | nil => rfl
  | cons b rest ih =>
    cases base with
    | zero =>
      cases pl with
      | nil => rfl
      | cons p ps =>
        cases i with
        | zero => simp at h
        | succ j =>
          simp only [writeAt, getByte, List.getD_cons_succ]
          simp only [List.length_cons] at h
          exact ih 0 ps j (by omega)
    | succ n =>
      cases i with
      | zero => rfl
      | succ j =>
        simp only [writeAt, getByte, List.getD_cons_succ]
        exact ih n pl j (by omega)

theorem getByte_writeAt_in (buf : List Nat) (base : Nat) (pl : List Nat)
    (i : Nat) (hlo : base ≤ i) (hhi : i < base + pl.length)
    (hbuf : i < buf.length) :
    getByte (writeAt buf base pl) i = getByte pl (i - base) := by
  induction buf generalizing base pl i with
  | nil => simp at hbuf
  | cons b rest ih =>
    cases base with
    | zero =>
      cases pl with
      | nil => simp at hhi
      | cons p ps =>
        cases i with
        | zero => rfl
        | succ j =>
          simp only [writeAt, getByte, List.getD_cons_succ]
          simp only [List.length_cons] at hhi hbuf
          have := ih 0 ps j (by omega) (by omega) (by omega)
          simpa [getByte] using this
    | succ n =>
      cases i with
      | zero => omega
      | succ j =>
        simp only [writeAt, getByte, List.getD_cons_succ]
        simp only [List.length_cons] at hbuf
        have := ih n pl j (by omega) (by omega) (by omega)
        simpa [getByte, Nat.succ_sub_succ] using this

/-! ## Reassembly decoder theorems (claims C1, C2, C3, C6, C8) -/

/-- C1 (evaluation at the failing input).  The claim says a write with
`offset + length ≤ sizeof(struct zmk_split_run_behavior_payload)` copies the
payload bytes into the fixed buffer at byte offset `offset`.  The code's
`memcpy(payload + offset, buf, len)` advances the destination by
`offset * sizeof(*payload)` bytes, so for the accepted write `(offset = 10,
len = 5)` on the zeroed buffer nothing lands inside the buffer at all:
reading back the range `[10, 15)` yields the old zero bytes, not the payload
that was written. -/
theorem run_behavior_offset_write_lost :
    (split_svc_run_behavior inv_ok zeroPayloadBuf scenario_write2 10).ret = 5 ∧
    (split_svc_run_behavior inv_ok zeroPayloadBuf scenario_write2 10).buf =
      zeroPayloadBuf ∧
    readRange (split_svc_run_behavior inv_ok zeroPayloadBuf scenario_write2 10).buf
      10 5 = [0, 0, 0, 0, 0] ∧
    readRange (split_svc_run_behavior inv_ok zeroPayloadBuf scenario_write2 10).buf
      10 5 ≠ scenario_write2 := by
  decide

/-- C2.  For every write accepted with no 16-bit truncation
(`offset + length ≤ sizeof(struct zmk_split_run_behavior_payload)`), at most
one dispatch is made, and a dispatch fires if and only if `offset + length`
extends past the fixed-header boundary `sizeof(struct
zmk_split_run_behavior_data)` and the buffer byte at absolute position
`offset + length - 1` (which then lies within the identifier region) is the
NUL terminator; in particular a write that does not extend past the header
region never triggers a decode. -/
theorem run_behavior_completion_iff (invoke : Dispatch → Int)
    (buf pl : List Nat) (offset : Nat)
    (hacc : offset + pl.length ≤ run_behavior_payload_size) :
    (split_svc_run_behavior invoke buf pl offset).dispatches.length ≤ 1 ∧
    ((split_svc_run_behavior invoke buf pl offset).dispatches ≠ [] ↔
      (run_behavior_data_size < offset + pl.length ∧
        getByte (split_svc_run_behavior invoke buf pl offset).buf
          (offset + pl.length - 1) = 0)) ∧
    (offset + pl.length ≤ run_behavior_data_size →
      (split_svc_run_behavior invoke buf pl offset).dispatches = []) := by
  have hsz : run_behavior_payload_size = 20 := by decide
  have hds : run_behavior_data_size = 11 := by decide
  have hdo : behavior_dev_offset = 11 := by decide
  rw [hsz] at hacc
  have hmod : (offset + pl.length) % 65536 = offset + pl.length :=
    Nat.mod_eq_of_lt (by omega)
  simp only [split_svc_run_behavior, hmod, hds, hdo, hsz]
  rw [if_neg (by omega : ¬ offset + pl.length > 20)]
  by_cases h1 : 11 < offset + pl.length
  · have hidx : 11 + (offset + pl.length - 11 - 1) = offset + pl.length - 1 := by
      omega
    rw [hidx]
    by_cases h2 : getByte (writeAt buf (offset * 20) pl) (offset + pl.length - 1) = 0
    · rw [if_pos ⟨h1, h2⟩]
      exact ⟨by simp, by simp [h1, h2], fun hc => absurd h1 (by omega)⟩
    · rw [if_neg (fun hc => h2 hc.2)]
      exact ⟨by simp, by simp [h2], fun _ => rfl⟩
  · rw [if_neg (fun hc => h1 hc.1)]
    exact ⟨by simp, by simp [h1], fun _ => rfl⟩

/-- Witness for C2: the scenario message written in one piece at offset 0
does fire a dispatch. -/
theorem run_behavior_completion_iff_witness :
    (split_svc_run_behavior inv_ok zeroPayloadBuf scenario_full 0).dispatches ≠ [] :=
  ((run_behavior_completion_iff inv_ok zeroPayloadBuf scenario_full 0
    (by decide)).2.1).mpr (by decide)

/-- C3 (evaluation at the failing input).  Writing the scenario message
(`position = 5, param1 = 10, param2 = 0, state = 1, behavior_dev = "foo\0"`)
in two calls at offsets 0-9 and 10-14: after the first call no dispatch fires
(as the claim says), but because `memcpy(payload + offset, ...)` scales the
second write's offset by `sizeof(*payload)`, the `state` and `"foo\0"` bytes
never reach the buffer; the completion check then reads the stale NUL at
position 14 and fires exactly one dispatch — a release (state byte still 0)
with the empty identifier, not the claimed `press("foo", 10, 0, position=5)`. -/
theorem run_behavior_scenario_wrong_dispatch :
    scenario_r1.dispatches = [] ∧
    scenario_r2.ret = 5 ∧
    scenario_r2.dispatches =
      [{ behavior_dev := [], param1 := 10, param2 := 0, position := 5,
         pressed := false }] ∧
    (∀ d ∈ scenario_r2.dispatches, d.behavior_dev ≠ foo_bytes ∧ d.pressed ≠ true) := by
  decide

/-- C6 (counterexample).  The claim demands rejection of every write with
`offset + length` exceeding the buffer size.  In `split_svc_run_behavior` the
end address is computed as `uint16_t end_addr = offset + len`, which wraps
modulo 2^16: the write `(offset = 65535, len = 2)` has `offset + len = 65537 >
sizeof(payload)` yet is accepted (return 2, the accepted length, not the
invalid-offset error). -/
theorem run_behavior_overflow_wrap_accepted :
    65535 + ([0, 0] : List Nat).length > run_behavior_payload_size ∧
    split_svc_run_behavior inv_ok zeroPayloadBuf [0, 0] 65535 =
      ⟨zeroPayloadBuf, 2, [], []⟩ ∧
    (2 : Int) ≠ BT_GATT_ERR BT_ATT_ERR_INVALID_OFFSET := by
  decide

/-- C6 (amended).  Provided `offset + length` does not overflow the 16-bit
`end_addr` (`offset + length < 65536`), a write to either offset-addressed
primitive with `offset + length` strictly greater than the target buffer size
is rejected with the invalid-offset error — which differs from the generic
ATT error — and the target buffer is left completely unchanged. -/
theorem overflow_writes_rejected (invoke : Dispatch → Int)
    (buf ind pl pl2 : List Nat) (offset offset2 : Nat)
    (h16 : offset + pl.length < 65536)
    (hover : offset + pl.length > run_behavior_payload_size)
    (hover2 : offset2 + pl2.length > hid_indicators_size) :
    split_svc_run_behavior invoke buf pl offset =
      ⟨buf, BT_GATT_ERR BT_ATT_ERR_INVALID_OFFSET, [], []⟩ ∧
    split_svc_update_indicators ind pl2 offset2 =
      ⟨ind, BT_GATT_ERR BT_ATT_ERR_INVALID_OFFSET, false⟩ ∧
    BT_GATT_ERR BT_ATT_ERR_INVALID_OFFSET ≠ BT_GATT_ERR BT_ATT_ERR_UNLIKELY := by
  refine ⟨?_, ?_, by decide⟩
  · have hmod : (offset + pl.length) % 65536 = offset + pl.length :=
      Nat.mod_eq_of_lt h16
    simp only [split_svc_run_behavior, hmod]
    rw [if_pos hover]
  · simp only [split_svc_update_indicators]
    rw [if_pos hover2]

/-- Witness for the amended C6: both primitives reject a one-past-the-end
write and leave their buffers unchanged. -/
theorem overflow_writes_rejected_witness :
    split_svc_run_behavior inv_ok zeroPayloadBuf [0, 0] 19 =
      ⟨zeroPayloadBuf, BT_GATT_ERR BT_ATT_ERR_INVALID_OFFSET, [], []⟩ ∧
    split_svc_update_indicators [0] [0] 1 =
      ⟨[0], BT_GATT_ERR BT_ATT_ERR_INVALID_OFFSET, false⟩ :=
  ⟨(overflow_writes_rejected inv_ok zeroPayloadBuf [0] [0, 0] [0] 19 1
      (by decide) (by decide) (by decide)).1,
   (overflow_writes_rejected inv_ok zeroPayloadBuf [0] [0, 0] [0] 19 1
      (by decide) (by decide) (by decide)).2.1⟩

/-- C8.  Every accepted write returns the accepted length as its (success)
status, whatever the behavior collaborator does: a dispatch failure (behavior
not found or its entry point returning an error) is recorded and logged but
never propagates to the byte-write caller. -/
theorem run_behavior_swallows_dispatch_err (invoke : Dispatch → Int)
    (buf pl : List Nat) (offset : Nat)
    (hacc : offset + pl.length ≤ run_behavior_payload_size) :
    (split_svc_run_behavior invoke buf pl offset).ret = (pl.length : Int) := by
  have hsz : run_behavior_payload_size = 20 := by decide
  rw [hsz] at hacc
  have hmod : (offset + pl.length) % 65536 = offset + pl.length :=
    Nat.mod_eq_of_lt (by omega)
  simp only [split_svc_run_behavior, hmod, hsz]
  rw [if_neg (by omega : ¬ offset + pl.length > 20)]
  split <;> rfl

/-- Witness for C8: the full scenario message dispatched against an
always-failing behavior collaborator still returns the accepted length 15. -/
theorem run_behavior_swallows_dispatch_err_witness :
    (split_svc_run_behavior inv_fail zeroPayloadBuf scenario_full 0).dispatchErrs =
      [-19] ∧
    (split_svc_run_behavior inv_fail zeroPayloadBuf scenario_full 0).ret = 15 := by
  refine ⟨by decide, ?_⟩
  have h := run_behavior_swallows_dispatch_err inv_fail zeroPayloadBuf
    scenario_full 0 (by decide)
  simpa using h

/-! ## Output queue helper lemmas -/

theorem work_handler_all_ok (ep : UsbHidMsg → Int) (hok : ∀ m, ep m = 0) :
    ∀ msgs : List UsbHidMsg,
      usb_hid_work_handler ep msgs 0 = ⟨⟨[], 0⟩, msgs, msgs, [], false, none⟩ := by
  intro msgs
  induction msgs with
  | nil => rfl
  | cons m rest ih => simp [usb_hid_work_handler, hok, ih]

theorem enqueueAll_eq (reports : List (List Nat)) :
    ∀ q : List UsbHidMsg, q.length + reports.length ≤ USB_HID_MSGQ_CAP →
      enqueueAll reports q = q ++ reports.map mkMsg := by
  induction reports with
  | nil => intro q h; simp [enqueueAll]
  | cons r rs ih =>
    intro q h
    simp only [List.length_cons] at h
    have hlt : q.length < USB_HID_MSGQ_CAP := by omega
    have hstep : (zmk_usb_hid_send_report .configured 0 q r).queue =
        q ++ [mkMsg r] := by
      simp [zmk_usb_hid_send_report, k_msgq_put, hlt, mkMsg]
    have hchain : enqueueAll (r :: rs) q =
        enqueueAll rs ((zmk_usb_hid_send_report .configured 0 q r).queue) := rfl
    rw [hchain, hstep, ih (q ++ [mkMsg r]) (by simpa using (by omega :
      q.length + 1 + rs.length ≤ USB_HID_MSGQ_CAP))]
    simp

theorem work_handler_fail_drop (ep : UsbHidMsg → Int) (m : UsbHidMsg)
    (rest : List UsbHidMsg) (f : Int) (hf : ep m ≠ 0) (h3 : ¬ f + 1 < 3) :
    usb_hid_work_handler ep (m :: rest) f =
      ⟨(usb_hid_work_handler ep rest 0).state,
        m :: (usb_hid_work_handler ep rest 0).attempted,
        (usb_hid_work_handler ep rest 0).delivered,
        m :: (usb_hid_work_handler ep rest 0).dropped,
        (usb_hid_work_handler ep rest 0).rescheduled,
        (usb_hid_work_handler ep rest 0).delayMs⟩ := by
  simp [usb_hid_work_handler, hf, h3]

theorem drive_step (ep : UsbHidMsg → Int) (fuel : Nat) (st : UsbHidState)
    (r : RunResult) (hr : usb_hid_work_handler ep st.msgq st.usb_hid_failed = r)
    (hres : r.rescheduled = true) :
    usb_hid_drive ep (fuel + 1) st =
      ⟨(usb_hid_drive ep fuel r.state).final,
        r.attempted ++ (usb_hid_drive ep fuel r.state).attempted,
        r.delivered ++ (usb_hid_drive ep fuel r.state).delivered,
        r.dropped ++ (usb_hid_drive ep fuel r.state).dropped,
        (usb_hid_drive ep fuel r.state).fuelOut⟩ := by
  simp [usb_hid_drive, hr, hres]

theorem drive_fail_from2 (ep : UsbHidMsg → Int) (hf : ∀ m, ep m ≠ 0) :
    ∀ (msgs : List UsbHidMsg) (m : UsbHidMsg),
      usb_hid_drive ep (2 * msgs.length + 1) ⟨m :: msgs, 2⟩ =
        ⟨⟨[], 0⟩, m :: tripleEach msgs, [], m :: msgs, false⟩ := by
  intro msgs
  induction msgs with
  | nil =>
    intro m
    simp [usb_hid_drive, usb_hid_work_handler, hf, tripleEach]
  | cons b rest ih =>
    intro m
    have h1 : usb_hid_work_handler ep (m :: b :: rest) 2 =
        ⟨⟨b :: rest, 1⟩, [m, b], [], [m], true, some 10⟩ := by
      simp [usb_hid_work_handler, hf]
    have h2 : usb_hid_work_handler ep (b :: rest) 1 =
        ⟨⟨b :: rest, 2⟩, [b], [], [], true, some 10⟩ := by
      simp [usb_hid_work_handler, hf]
    have hfuel : 2 * (b :: rest).length + 1 = 2 * rest.length + 1 + 1 + 1 := by
      simp [List.length_cons]; ring
    rw [hfuel]
    rw [drive_step ep (2 * rest.length + 1 + 1) ⟨m :: b :: rest, 2⟩ _ h1 rfl]
    rw [drive_step ep (2 * rest.length + 1) ⟨b :: rest, 1⟩ _ h2 rfl]
    simp [ih b, tripleEach]

theorem drive_fail_all (ep : UsbHidMsg → Int) (hf : ∀ m, ep m ≠ 0) :
    ∀ msgs : List UsbHidMsg,
      usb_hid_drive ep (2 * msgs.length + 1) ⟨msgs, 0⟩ =
        ⟨⟨[], 0⟩, tripleEach msgs, [], msgs, false⟩ := by
  intro msgs
  cases msgs with
  | nil => rfl
  | cons m rest =>
    have h1 : usb_hid_work_handler ep (m :: rest) 0 =
        ⟨⟨m :: rest, 1⟩, [m], [], [], true, some 10⟩ := by
      simp [usb_hid_work_handler, hf]
    have h2 : usb_hid_work_handler ep (m :: rest) 1 =
        ⟨⟨m :: rest, 2⟩, [m], [], [], true, some 10⟩ := by
      simp [usb_hid_work_handler, hf]
    have hfuel : 2 * (m :: rest).length + 1 = 2 * rest.length + 1 + 1 + 1 := by
      simp [List.length_cons]; ring
    rw [hfuel]
    rw [drive_step ep (2 * rest.length + 1 + 1) ⟨m :: rest, 0⟩ _ h1 rfl]
    rw [drive_step ep (2 * rest.length + 1) ⟨m :: rest, 1⟩ _ h2 rfl]
    simp [drive_fail_from2 ep hf rest m, tripleEach]

theorem usb_hid_reachable_failed_le (st : UsbHidState)
    (hreach : UsbHidReachable st) :
    0 ≤ st.usb_hid_failed ∧ st.usb_hid_failed ≤ 2 := by
  induction hreach with
  | init => exact ⟨le_refl 0, by norm_num⟩
  | enqueue st status w report _ ih => exact ih
  | retry ep st st' _ heq ih =>
    cases hq : st.msgq with
    | nil =>
      simp only [usb_hid_work_iter, hq] at heq
      exact absurd heq (by simp)
    | cons m rest =>
      simp only [usb_hid_work_iter, hq] at heq
      split_ifs at heq with h1 h2
      · simp only [IterOut.retryStop.injEq] at heq
        rw [← heq]
        exact ⟨(by omega : (0:Int) ≤ st.usb_hid_failed + 1),
          (by omega : st.usb_hid_failed + 1 ≤ (2:Int))⟩
  | advance ep st st' m d _ heq ih =>
    cases hq : st.msgq with
    | nil =>
      simp only [usb_hid_work_iter, hq] at heq
      exact absurd heq (by simp)
    | cons m2 rest =>
      simp only [usb_hid_work_iter, hq] at heq
      split_ifs at heq with h1 h2
      · simp only [IterOut.next.injEq] at heq
        rw [← heq.1]
        exact ⟨(by norm_num : (0:Int) ≤ 0), (by norm_num : (0:Int) ≤ 2)⟩
      · simp only [IterOut.next.injEq] at heq
        rw [← heq.1]
        exact ⟨(by norm_num : (0:Int) ≤ 0), (by norm_num : (0:Int) ≤ 2)⟩

theorem work_iter_next_failed_zero (ep : UsbHidMsg → Int) (st st' : UsbHidState)
    (m : UsbHidMsg) (d : Bool) (heq : usb_hid_work_iter ep st = .next st' m d) :
    st'.usb_hid_failed = 0 := by
  cases hq : st.msgq with
  | nil =>
    simp only [usb_hid_work_iter, hq] at heq
    exact absurd heq (by simp)
  | cons m2 rest =>
    simp only [usb_hid_work_iter, hq] at heq
    split_ifs at heq with h1 h2
    · simp only [IterOut.next.injEq] at heq
      rw [← heq.1]
    · simp only [IterOut.next.injEq] at heq
      rw [← heq.1]

/-! ## Output queue theorems (claims C4, C5, C7, C9, C10) -/

/-- C4.  Drain-worker retry/drop policy.  On a failed delivery of the head the
counter is incremented; while it stays below 3 the worker reschedules itself
after the fixed 10 ms delay without removing the head; once it reaches 3 the
head is dropped, the counter resets to 0, and draining continues with the
remaining elements; a successful delivery removes the head and resets the
counter.  Consequently a delivery interface that fails every attempt makes
exactly 3 attempts per item (each item appearing three times in the attempt
trace) before dropping it and moving to the next. -/
theorem usb_hid_retry_then_drop (ep : UsbHidMsg → Int) (m : UsbHidMsg)
    (rest msgs : List UsbHidMsg) (f : Int) :
    (ep m ≠ 0 → f + 1 < 3 →
      usb_hid_work_handler ep (m :: rest) f =
        ⟨⟨m :: rest, f + 1⟩, [m], [], [], true, some 10⟩) ∧
    (ep m ≠ 0 → ¬ f + 1 < 3 →
      usb_hid_work_handler ep (m :: rest) f =
        ⟨(usb_hid_work_handler ep rest 0).state,
          m :: (usb_hid_work_handler ep rest 0).attempted,
          (usb_hid_work_handler ep rest 0).delivered,
          m :: (usb_hid_work_handler ep rest 0).dropped,
          (usb_hid_work_handler ep rest 0).rescheduled,
          (usb_hid_work_handler ep rest 0).delayMs⟩) ∧
    (ep m = 0 →
      usb_hid_work_handler ep (m :: rest) f =
        ⟨(usb_hid_work_handler ep rest 0).state,
          m :: (usb_hid_work_handler ep rest 0).attempted,
          m :: (usb_hid_work_handler ep rest 0).delivered,
          (usb_hid_work_handler ep rest 0).dropped,
          (usb_hid_work_handler ep rest 0).rescheduled,
          (usb_hid_work_handler ep rest 0).delayMs⟩) ∧
    ((∀ x, ep x ≠ 0) →
      usb_hid_drive ep (2 * msgs.length + 1) ⟨msgs, 0⟩ =
        ⟨⟨[], 0⟩, tripleEach msgs, [], msgs, false⟩) := by
  refine ⟨?_, ?_, ?_, ?_⟩
  · intro hf hlt; simp [usb_hid_work_handler, hf, hlt]
  · intro hf h3; exact work_handler_fail_drop ep m rest f hf h3
  · intro hok; simp [usb_hid_work_handler, hok]
  · intro hall; exact drive_fail_all ep hall msgs

/-- Witness for C4: one failing attempt on a singleton queue reschedules with
the head kept, and driving a two-element queue against an always-failing
interface attempts each item exactly three times, drops both, and goes idle. -/
theorem usb_hid_retry_then_drop_witness :
    usb_hid_work_handler ep_fail [msgA] 0 =
      ⟨⟨[msgA], 1⟩, [msgA], [], [], true, some 10⟩ ∧
    usb_hid_drive ep_fail 5 ⟨[msgA, msgB], 0⟩ =
      ⟨⟨[], 0⟩, [msgA, msgA, msgA, msgB, msgB, msgB], [], [msgA, msgB], false⟩ := by
  constructor
  · exact (usb_hid_retry_then_drop ep_fail msgA [] [] 0).1 (by decide) (by decide)
  · have h := (usb_hid_retry_then_drop ep_fail msgA [] [msgA, msgB] 0).2.2.2
      (fun x => by simp [ep_fail])
    simpa [tripleEach] using h

/-- C5 (counterexample).  With the queue already at its capacity of 8, the
claim says the caller sees a queue-full error result.  In the code the failed
`k_msgq_put` is only logged: `zmk_usb_hid_send_report` returns 0 (success) to
its caller, with the queue unchanged and no item enqueued. -/
theorem send_report_full_queue_returns_success :
    fullQueue.length = USB_HID_MSGQ_CAP ∧
    zmk_usb_hid_send_report .configured 0 fullQueue [9] =
      ⟨0, fullQueue, false, false⟩ ∧
    ¬ (zmk_usb_hid_send_report .configured 0 fullQueue [9]).ret < 0 := by
  decide

/-- C5 (amended).  When the queue already holds its capacity of 8 elements,
the internal enqueue `k_msgq_put(.., K_NO_WAIT)` fails non-blocking with
`-ENOMSG` and the queue is unchanged (nothing enqueued); however
`zmk_usb_hid_send_report` swallows that failure — it logs it and returns 0
(success) to its caller instead of surfacing a queue-full error. -/
theorem send_report_full_queue_drops (q : List UsbHidMsg) (report : List Nat)
    (w : Int) (hfull : USB_HID_MSGQ_CAP ≤ q.length) :
    k_msgq_put q (mkMsg report) = (q, -ENOMSG) ∧
    zmk_usb_hid_send_report .configured w q report = ⟨0, q, false, false⟩ := by
  have hnot : ¬ q.length < USB_HID_MSGQ_CAP := by omega
  constructor
  · simp [k_msgq_put, hnot]
  · simp [zmk_usb_hid_send_report, k_msgq_put, hnot, mkMsg, ENOMSG]

/-- Witness for the amended C5: the full queue rejects the put, yet the send
call reports success with the queue unchanged. -/
theorem send_report_full_queue_drops_witness :
    k_msgq_put fullQueue (mkMsg [9]) = (fullQueue, -ENOMSG) ∧
    zmk_usb_hid_send_report .configured 0 fullQueue [9] =
      ⟨0, fullQueue, false, false⟩ :=
  send_report_full_queue_drops fullQueue [9] 0 (by decide)

/-- C7.  Status gate of `zmk_usb_hid_send_report`: on `USB_DC_SUSPEND` a
wake/resume is requested and the call returns immediately (the wakeup-request
result) with nothing queued; on `USB_DC_DISCONNECTED`, `USB_DC_ERROR`,
`USB_DC_RESET` or `USB_DC_UNKNOWN` the call fails fast with `-ENODEV` and
nothing is queued; for every other status (and room in the queue) the report
is appended to the queue and the drain work scheduled. -/
theorem send_report_status_gate (w : Int) (q : List UsbHidMsg)
    (report : List Nat) :
    zmk_usb_hid_send_report .suspend w q report = ⟨w, q, true, false⟩ ∧
    (∀ s : UsbDcStatus,
      (s = .disconnected ∨ s = .usbError ∨ s = .usbReset ∨ s = .unknown) →
      zmk_usb_hid_send_report s w q report = ⟨-ENODEV, q, false, false⟩) ∧
    (∀ s : UsbDcStatus, s ≠ .suspend → s ≠ .disconnected → s ≠ .usbError →
      s ≠ .usbReset → s ≠ .unknown → q.length < USB_HID_MSGQ_CAP →
      zmk_usb_hid_send_report s w q report =
        ⟨0, q ++ [mkMsg report], false, true⟩) := by
  refine ⟨rfl, ?_, ?_⟩
  · rintro s (rfl | rfl | rfl | rfl) <;> rfl
  · intro s h1 h2 h3 h4 h5 hlen
    cases s <;>
      simp_all [zmk_usb_hid_send_report, k_msgq_put, mkMsg]

/-- Witness for C7: the three behaviours at concrete inputs — suspended
requests a wake, disconnected fails with `-ENODEV`, configured enqueues. -/
theorem send_report_status_gate_witness :
    zmk_usb_hid_send_report .suspend 0 [] [9] = ⟨0, [], true, false⟩ ∧
    zmk_usb_hid_send_report .disconnected 0 [] [9] =
      ⟨-ENODEV, [], false, false⟩ ∧
    zmk_usb_hid_send_report .configured 0 [] [9] =
      ⟨0, [mkMsg [9]], false, true⟩ := by
  refine ⟨(send_report_status_gate 0 [] [9]).1, ?_, ?_⟩
  · exact (send_report_status_gate 0 [] [9]).2.1 UsbDcStatus.disconnected
      (Or.inl rfl)
  · have h := (send_report_status_gate 0 [] [9]).2.2 UsbDcStatus.configured
      (by decide) (by decide) (by decide) (by decide) (by decide) (by decide)
    simpa using h

/-- C9.  FIFO with head-only drops: enqueueing `N ≤ 8` reports puts them on
the queue in order; draining with an always-succeeding delivery interface
delivers exactly those `N` messages in enqueue (FIFO) order, leaving the queue
empty and the worker idle (no reschedule); and whenever a drop happens it
removes exactly the current head element. -/
theorem usb_hid_fifo_drain (reports : List (List Nat)) (ep : UsbHidMsg → Int)
    (hN : reports.length ≤ USB_HID_MSGQ_CAP) (hok : ∀ m, ep m = 0) :
    enqueueAll reports [] = reports.map mkMsg ∧
    usb_hid_work_handler ep (enqueueAll reports []) 0 =
      ⟨⟨[], 0⟩, reports.map mkMsg, reports.map mkMsg, [], false, none⟩ ∧
    (∀ (ep2 : UsbHidMsg → Int) (m : UsbHidMsg) (rest : List UsbHidMsg) (f : Int),
      ep2 m ≠ 0 → ¬ f + 1 < 3 →
      (usb_hid_work_handler ep2 (m :: rest) f).dropped =
        m :: (usb_hid_work_handler ep2 rest 0).dropped) := by
  have henq : enqueueAll reports [] = reports.map mkMsg := by
    simpa using enqueueAll_eq reports [] (by simpa using hN)
  refine ⟨henq, ?_, ?_⟩
  · rw [henq]; exact work_handler_all_ok ep hok (reports.map mkMsg)
  · intro ep2 m rest f hf h3
    rw [work_handler_fail_drop ep2 m rest f hf h3]

/-- Witness for C9: three concrete reports are enqueued and drained in FIFO
order with the queue left empty and the worker idle. -/
theorem usb_hid_fifo_drain_witness :
    enqueueAll [[1], [2], [3]] [] = [⟨[1], 1⟩, ⟨[2], 1⟩, ⟨[3], 1⟩] ∧
    usb_hid_work_handler ep_ok (enqueueAll [[1], [2], [3]] []) 0 =
      ⟨⟨[], 0⟩, [⟨[1], 1⟩, ⟨[2], 1⟩, ⟨[3], 1⟩],
        [⟨[1], 1⟩, ⟨[2], 1⟩, ⟨[3], 1⟩], [], false, none⟩ := by
  have h := usb_hid_fifo_drain [[1], [2], [3]] ep_ok (by decide)
    (fun m => rfl)
  exact ⟨by simpa [mkMsg] using h.1, by simpa [mkMsg] using h.2.1⟩

/-- C10.  The consecutive-failure counter `usb_hid_failed` in every reachable
state lies in `[0, 2]`, so its transient peak during a failed attempt is at
most 3; it increments only while a delivery of the current head fails; and
whenever an element is removed (successful delivery or drop) the counter is
reset to 0, so every new head starts its attempts from 0 — in particular a
successful delivery removes the head without any increment. -/
theorem usb_hid_failed_invariant (st : UsbHidState)
    (hreach : UsbHidReachable st) :
    (0 ≤ st.usb_hid_failed ∧ st.usb_hid_failed ≤ 2) ∧
    (∀ (ep : UsbHidMsg → Int) (m : UsbHidMsg) (rest : List UsbHidMsg),
      st.msgq = m :: rest → ep m ≠ 0 →
      0 ≤ st.usb_hid_failed + 1 ∧ st.usb_hid_failed + 1 ≤ 3) ∧
    (∀ (ep : UsbHidMsg → Int) (st' : UsbHidState) (m : UsbHidMsg) (d : Bool),
      usb_hid_work_iter ep st = .next st' m d → st'.usb_hid_failed = 0) ∧
    (∀ (ep : UsbHidMsg → Int) (m : UsbHidMsg) (rest : List UsbHidMsg),
      st.msgq = m :: rest → ep m = 0 →
      usb_hid_work_iter ep st = .next ⟨rest, 0⟩ m true) := by
  have hle := usb_hid_reachable_failed_le st hreach
  refine ⟨hle, ?_, ?_, ?_⟩
  · intro ep m rest _ _; omega
  · intro ep st' m d heq; exact work_iter_next_failed_zero ep st st' m d heq
  · intro ep m rest hq hok
    simp [usb_hid_work_iter, hq, hok]

/-- Witness for C10: the state `⟨[msgA], 1⟩`, reached by enqueueing one report
and suffering one failed delivery attempt, satisfies the counter bounds. -/
theorem usb_hid_failed_invariant_witness :
    0 ≤ (⟨[msgA], 1⟩ : UsbHidState).usb_hid_failed ∧
    (⟨[msgA], 1⟩ : UsbHidState).usb_hid_failed ≤ 2 :=
  (usb_hid_failed_invariant ⟨[msgA], 1⟩
    (UsbHidReachable.retry ep_fail ⟨[msgA], 0⟩ ⟨[msgA], 1⟩
      (UsbHidReachable.enqueue ⟨[], 0⟩ .configured 0 [1] UsbHidReachable.init)
      (by decide))).1

end ZmkSpec
